import Mathlib

/-!
Verification of the documents-to-graph pipeline
(examples/documents2graph_pipeline.py) against its specification.

The Python source is embedded shallowly: dataclasses become structures,
Python string slicing becomes an explicit function on character lists,
the per-document loop of BuildGraph.run becomes structural recursion, and
the neo4j write calls issued by main become an explicit operation trace
together with a small state model of the store.
-/

/-- Entity dataclass of the pipeline: equality (and hashing) is by the pair
(e_type, surface_string), i.e. value identity. -/
structure Entity where
  e_type : String
  surface_string : String
  deriving DecidableEq

/-- Relationship dataclass of the pipeline: two entities plus the string
stored in its relationship field (BuildGraph.run stores the document id
there). -/
structure Relationship where
  ent1 : Entity
  ent2 : Entity
  relationship : String
  deriving DecidableEq

/-- The duck-typed span object produced by the NER collaborator.
BuildGraph.extract_entities reads the attributes entity, start and end from
it; end is a Lean keyword, so the field is spelled end_. Offsets are kept
as integers because Python slicing accepts arbitrary (also negative)
integers. -/
structure NamedEntity where
  entity : String
  start : Int
  end_ : Int
  deriving DecidableEq

/-- The part of a haystack Document that the pipeline reads: its id, its
content, and the named_entities list placed in doc.meta by the NER
component. -/
structure PyDocument where
  id : String
  content : String
  named_entities : List NamedEntity
  deriving DecidableEq

/-- Index computation of Python slicing s[start:stop] for a sequence of
length n: a negative index counts from the end (n + i, floored at 0), a
non-negative index is capped at n. -/
def pySliceIndex (n : Nat) (i : Int) : Int :=
  if i < 0 then max ((n : Int) + i) 0 else min i (n : Int)

/-- Python string slicing doc_text[start:end] on the character list of the
text: both indices are resolved by pySliceIndex and the characters between
them are taken (empty when the resolved start is not below the resolved
stop). Python slicing never raises for any integer offsets. -/
def pySlice (s : List Char) (start stop : Int) : List Char :=
  (s.drop (pySliceIndex s.length start).toNat).take
    ((pySliceIndex s.length stop) - (pySliceIndex s.length start)).toNat

/-- BuildGraph.extract_entities: reads entity, start, end off the raw
annotation object and returns Entity(e_type, doc_text[start:end]). -/
def extract_entities (entity : NamedEntity) (doc_text : String) : Entity :=
  ⟨entity.entity, String.mk (pySlice doc_text.data entity.start entity.end_)⟩

/-- The comprehension in BuildGraph.run that pairs each entity with its
successor: consecutive_pairs of es lists the pairs of adjacent elements,
from left to right (empty for fewer than two elements, matching
range(len(entities) - 1)). -/
def consecutive_pairs : List Entity → List (Entity × Entity)
  | a :: b :: rest => (a, b) :: consecutive_pairs (b :: rest)
  | _ => []

/-- The relationship comprehension in BuildGraph.run: one
Relationship(ent1, ent2, doc.id) per consecutive pair. -/
def buildRelationships (entities : List Entity) (doc_id : String) : List Relationship :=
  (consecutive_pairs entities).map (fun p => ⟨p.1, p.2, doc_id⟩)

/-- Stable insertion of one annotation into an already sorted processed
portion: the new element goes after every element whose start is less
than or equal to its own, so elements with equal keys keep their original
relative order. -/
def insertByStart (a : NamedEntity) : List NamedEntity → List NamedEntity
  | [] => [a]
  | b :: l => if b.start ≤ a.start then b :: insertByStart a l else a :: b :: l

/-- The sorted(doc.meta[named_entities], key=lambda entity: entity.start)
call in BuildGraph.run: a stable sort by the start offset, modelled as
left-to-right stable insertion. -/
def sortByStart (l : List NamedEntity) : List NamedEntity :=
  l.foldl (fun acc a => insertByStart a acc) []

/-- The ordered entity list BuildGraph.run computes for one document:
annotations sorted by start offset, each turned into an Entity by
extract_entities against the document content. -/
def docEntities (doc : PyDocument) : List Entity :=
  (sortByStart doc.named_entities).map (fun e => extract_entities e doc.content)

/-- BuildGraph.run: per document, the sorted entity list and its
consecutive-pair relationships are appended to the batch-global
accumulators, documents processed in order. -/
def run : List PyDocument → List Entity × List Relationship
  | [] => ([], [])
  | doc :: docs =>
    (docEntities doc ++ (run docs).1,
     buildRelationships (docEntities doc) doc.id ++ (run docs).2)

/-- Sanity example kept as a plain theorem: slicing the scenario text. -/
theorem pySlice_sanity :
    String.mk (pySlice ("Apple hired John in Paris").data 12 16) = "John" := by decide

/-- Recursive core of entity_normalizer: seen is the set built so far (kept
as an insertion-ordered duplicate-free list; only membership is observable
on a Python set), and the second component collects, in iteration order,
the entities the loop prints as duplicated (one occurrence per print). -/
def normalizerAux (seen : List Entity) : List Entity → List Entity × List Entity
  | [] => (seen, [])
  | e :: es =>
    if e ∈ seen then
      ((normalizerAux seen es).1, e :: (normalizerAux seen es).2)
    else
      normalizerAux (seen ++ [e]) es

/-- entity_normalizer of the pipeline: returns the seen set together with
the printed duplicate log. -/
def entity_normalizer (entities : List Entity) : List Entity × List Entity :=
  normalizerAux [] entities

/-- The relationship type string main passes to every create_relationship
call. -/
def relatedType : String := "RELATED"

/-- One write call against the neo4j store, as issued by main: a node
creation carries the label and the surface_string property, an edge
creation carries both endpoint labels and surfaces, the relationship type
and the relationship property. -/
inductive StoreOp where
  | node (label : String) (surface : String)
  | edge (label1 : String) (surface1 : String) (label2 : String) (surface2 : String)
      (rel_type : String) (relationship : String)
  deriving DecidableEq

/-- Discriminator for edge operations. -/
def StoreOp.isEdge : StoreOp → Bool
  | .node _ _ => false
  | .edge _ _ _ _ _ _ => true

/-- The create_node calls issued by the first persistence loop of main: one
per element of the raw batch entity list (main iterates the entities of the
pipeline result, not the normalized set). -/
def mainNodeOps (docs : List PyDocument) : List StoreOp :=
  (run docs).1.map (fun entity => StoreOp.node entity.e_type entity.surface_string)

/-- The create_relationship calls issued by the second persistence loop of
main: one per relationship of the pipeline result. -/
def mainEdgeOps (docs : List PyDocument) : List StoreOp :=
  (run docs).2.map (fun r =>
    StoreOp.edge r.ent1.e_type r.ent1.surface_string r.ent2.e_type r.ent2.surface_string
      relatedType r.relationship)

/-- The full write-call sequence of main, in program order: the node loop
runs to completion before the relationship loop starts. -/
def mainStoreOps (docs : List PyDocument) : List StoreOp :=
  mainNodeOps docs ++ mainEdgeOps docs

/-- State of the external graph store: the multiset of nodes (label paired
with the surface_string property, the only property main ever sends) and
the multiset of edges, both kept as lists in creation order. -/
structure GraphStore where
  nodes : List (String × String)
  edges : List (String × String × String × String × String × String)
  deriving DecidableEq

/-- Effect on the store of the Cypher query built by
Neo4jHandler._create_node: CREATE (n:label { properties }) unconditionally
adds a fresh node; it never checks whether an equal node already exists. -/
def create_node (store : GraphStore) (label : String) (properties : String) : GraphStore :=
  ⟨store.nodes ++ [(label, properties)], store.edges⟩

/-- Effect on the store of the Cypher query built by
Neo4jHandler._create_relationship: MATCH the two endpoints, then CREATE a
fresh directed edge; edges are never deduplicated. -/
def create_relationship (store : GraphStore) (label1 properties1 label2 properties2 rel_type rel_properties : String) : GraphStore :=
  ⟨store.nodes, store.edges ++ [(label1, properties1, label2, properties2, rel_type, rel_properties)]⟩

/-- The per-entity node persistence loop of main run against a store state:
one create_node per entity, with the surface_string property. -/
def persistNodes (store : GraphStore) (entities : List Entity) : GraphStore :=
  entities.foldl (fun st entity => create_node st entity.e_type entity.surface_string) store

/-- The per-relationship edge persistence loop of main run against a store
state: one create_relationship per relationship, with rel_type RELATED and
the relationship property. -/
def persistEdges (store : GraphStore) (relationships : List Relationship) : GraphStore :=
  relationships.foldl
    (fun st r =>
      create_relationship st r.ent1.e_type r.ent1.surface_string r.ent2.e_type
        r.ent2.surface_string relatedType r.relationship)
    store

/-- Follows the words of the spec (CreateNodeIfAbsent): idempotent node
creation keyed by (label, properties) equality. Kept for comparison with
the source create_node, which is an unconditional CREATE. -/
def create_node_if_absent (store : GraphStore) (label : String) (properties : String) : GraphStore :=
  if (label, properties) ∈ store.nodes then store
  else ⟨store.nodes ++ [(label, properties)], store.edges⟩

/-- Error kind named by the spec for malformed annotations. -/
inductive SpanError where
  | OutOfRangeSpan
  deriving DecidableEq

/-- Follows the words of the spec (section 4.1), for comparison with the
source function extract_entities: produce the Entity when
0 <= start <= end <= len(text) holds and fail with OutOfRangeSpan
otherwise. -/
def specSpanExtract (entity : NamedEntity) (doc_text : String) : Except SpanError Entity :=
  if 0 ≤ entity.start ∧ entity.start ≤ entity.end_ ∧ entity.end_ ≤ (doc_text.length : Int) then
    Except.ok (extract_entities entity doc_text)
  else
    Except.error SpanError.OutOfRangeSpan

/-- Index clamping in the words of claim C10: the offset is forced into
the interval [0, n] directly, with no special treatment of negative
values. -/
def clampIndex (n : Nat) (i : Int) : Int :=
  min (max i 0) (n : Int)

/-- The clamped slice in the words of claim C10: both offsets clamped into
[0, length], then the characters between them. -/
def clampedSlice (s : List Char) (start stop : Int) : List Char :=
  (s.drop (clampIndex s.length start).toNat).take
    ((clampIndex s.length stop) - (clampIndex s.length start)).toNat

/-- Python negative-offset adjustment: a negative offset counts from the
end of the sequence. -/
def pyAdjust (n : Nat) (i : Int) : Int :=
  if i < 0 then (n : Int) + i else i

/-- Helper for the claimed duplicate report: the elements that are exactly
the second occurrence of their value, in input order; prev accumulates the
already scanned portion. -/
def secondOccurrences (prev : List Entity) : List Entity → List Entity
  | [] => []
  | e :: rest =>
    if prev.count e = 1 then e :: secondOccurrences (prev ++ [e]) rest
    else secondOccurrences (prev ++ [e]) rest

/-- Follows the words of claim C8, for comparison with the duplicate log of
the source entity_normalizer: one record per duplicated entity, carrying
its total occurrence count, ordered by the position of the entity's second
occurrence in the input. -/
def specDupReport (entities : List Entity) : List (Entity × Nat) :=
  (secondOccurrences [] entities).map (fun e => (e, entities.count e))

/-- The scenario document D1 of the spec: content and the three NER
annotations. -/
def d1 : PyDocument :=
  ⟨"D1", "Apple hired John in Paris", [⟨"ORG", 0, 5⟩, ⟨"PERSON", 12, 16⟩, ⟨"LOC", 20, 25⟩]⟩

/-- The three entities of the scenario. -/
def appleEntity : Entity := ⟨"ORG", "Apple"⟩

/-- Second scenario entity. -/
def johnEntity : Entity := ⟨"PERSON", "John"⟩

/-- Third scenario entity. -/
def parisEntity : Entity := ⟨"LOC", "Paris"⟩

/-- A document mentioning the same entity twice, used to exercise
deduplication behaviour. -/
def dupDoc : PyDocument :=
  ⟨"D2", "Apple and Apple", [⟨"ORG", 0, 5⟩, ⟨"ORG", 10, 15⟩]⟩

/-- A document with a single annotation. -/
def singleEntityDoc : PyDocument :=
  ⟨"D3", "Apple", [⟨"ORG", 0, 5⟩]⟩

/-- Sanity: the batch result on the duplicated document. -/
theorem run_dupDoc_sanity :
    run [dupDoc] = ([appleEntity, appleEntity], [⟨appleEntity, appleEntity, "D2"⟩]) := by decide

/-- There is one consecutive pair fewer than there are entities (with
truncated subtraction on Nat). -/
theorem consecutive_pairs_length : ∀ es : List Entity,
    (consecutive_pairs es).length = es.length - 1
  | [] => rfl
  | [_] => rfl
  | a :: b :: rest => by
    have ih := consecutive_pairs_length (b :: rest)
    simp only [consecutive_pairs, List.length_cons] at ih ⊢
    omega

/-- Every consecutive pair splits the entity list around two adjacent
positions. -/
theorem consecutive_pairs_mem_split : ∀ (es : List Entity) (p : Entity × Entity),
    p ∈ consecutive_pairs es → ∃ l1 l2, es = l1 ++ p.1 :: p.2 :: l2
  | [], _, hp => nomatch hp
  | [_], _, hp => nomatch hp
  | a :: b :: rest, p, hp => by
    rcases List.mem_cons.mp hp with h | h
    · subst h
      exact ⟨[], rest, rfl⟩
    · obtain ⟨l1, l2, he⟩ := consecutive_pairs_mem_split (b :: rest) p h
      exact ⟨a :: l1, l2, by rw [List.cons_append, ← he]⟩

/-- Helper: the relationship list is as long as the consecutive-pair
list. -/
theorem buildRelationships_length (es : List Entity) (doc_id : String) :
    (buildRelationships es doc_id).length = es.length - 1 := by
  unfold buildRelationships
  rw [List.length_map, consecutive_pairs_length]

/-- C1: running the Relationship Builder (the consecutive-pair step of
BuildGraph.run) on a document's ordered entity list emits exactly
max(0, n - 1) relationships, where n is the number of entities extracted
from the document; in particular, for n ≤ 1 it emits none. -/
theorem relationship_count_eq (doc : PyDocument) :
    ((buildRelationships (docEntities doc) doc.id).length : Int) =
      max 0 (((docEntities doc).length : Int) - 1) ∧
    ((docEntities doc).length ≤ 1 → buildRelationships (docEntities doc) doc.id = []) := by
  constructor
  · rw [buildRelationships_length]
    rcases Nat.eq_zero_or_pos (docEntities doc).length with h | h
    · simp [h]
    · rw [max_eq_right (by omega)]
      omega
  · intro h
    have := buildRelationships_length (docEntities doc) doc.id
    have hz : (buildRelationships (docEntities doc) doc.id).length = 0 := by omega
    exact List.length_eq_zero.mp hz

/-- Witness for C1 at a concrete single-entity document. -/
theorem relationship_count_eq_witness :
    buildRelationships (docEntities singleEntityDoc) singleEntityDoc.id = [] :=
  (relationship_count_eq singleEntityDoc).2 (by decide)

/-- C9: on the scenario document D1 the Graph Assembler produces exactly
the entity list [(ORG, Apple), (PERSON, John), (LOC, Paris)] in that order
and exactly the relationship list [(Apple, John, D1), (John, Paris, D1)]
in that order. -/
theorem scenario_d1 :
    run [d1] = ([appleEntity, johnEntity, parisEntity],
      [⟨appleEntity, johnEntity, "D1"⟩, ⟨johnEntity, parisEntity, "D1"⟩]) := by decide

/-- Python's slice index equals the claimed clamp applied after the
negative-offset adjustment. -/
theorem pySliceIndex_eq_clamp_adjust (n : Nat) (i : Int) :
    pySliceIndex n i = clampIndex n (pyAdjust n i) := by
  unfold pySliceIndex clampIndex pyAdjust
  split <;> omega

/-- The source slice equals the clamped slice of the
negative-offset-adjusted indices. -/
theorem pySlice_eq_clamped_adjusted (s : List Char) (start stop : Int) :
    pySlice s start stop =
      clampedSlice s (pyAdjust s.length start) (pyAdjust s.length stop) := by
  unfold pySlice clampedSlice
  rw [pySliceIndex_eq_clamp_adjust, pySliceIndex_eq_clamp_adjust]

/-- C2 counterexample: at the out-of-range annotation (ORG, 2, 10) on the
three-character text abc, the behaviour the claim mandates is an
OutOfRangeSpan failure, but the source extract_entities does not fail: it
returns the Entity (ORG, c) obtained from Python slice clamping. -/
theorem span_extract_no_error_counterexample :
    specSpanExtract ⟨"ORG", 2, 10⟩ "abc" = Except.error SpanError.OutOfRangeSpan ∧
    extract_entities ⟨"ORG", 2, 10⟩ "abc" = ⟨"ORG", "c"⟩ :=
  ⟨rfl, by decide⟩

/-- C2 amended: for in-range offsets 0 <= start <= end <= len(text), the
Span Extractor returns an Entity whose surface is exactly text[start:end]
(the characters from position start up to but excluding end); for
out-of-range offsets it does not fail — extraction is a total function and
still returns an Entity, with the surface given by Python slice
semantics. -/
theorem span_extract_in_range (a : NamedEntity) (t : String)
    (h0 : 0 ≤ a.start) (h1 : a.start ≤ a.end_) (h2 : a.end_ ≤ (t.length : Int)) :
    extract_entities a t =
      ⟨a.entity, String.mk ((t.data.take a.end_.toNat).drop a.start.toNat)⟩ := by
  have hlen : t.length = t.data.length := rfl
  unfold extract_entities pySlice
  have hs : pySliceIndex t.data.length a.start = a.start := by
    unfold pySliceIndex
    split <;> omega
  have he : pySliceIndex t.data.length a.end_ = a.end_ := by
    unfold pySliceIndex
    split <;> omega
  rw [hs, he]
  have hsub : (a.end_ - a.start).toNat = a.end_.toNat - a.start.toNat := by omega
  rw [hsub, List.drop_take]

/-- Witness for the amended C2 at the scenario's first annotation. -/
theorem span_extract_in_range_witness :
    extract_entities ⟨"ORG", 0, 5⟩ "Apple hired John in Paris" =
      ⟨"ORG", String.mk ((("Apple hired John in Paris").data.take 5).drop 0)⟩ :=
  span_extract_in_range ⟨"ORG", 0, 5⟩ "Apple hired John in Paris"
    (by decide) (by decide) (by decide)

/-- C10 counterexample: at the annotation (ORG, -1, 3) on the text abc the
source extract_entities yields surface c (Python interprets the negative
offset relative to the end of the text), while the clamped slice the claim
describes is the whole text abc; the two disagree. -/
theorem clamped_slice_counterexample :
    extract_entities ⟨"ORG", -1, 3⟩ "abc" = ⟨"ORG", "c"⟩ ∧
    String.mk (clampedSlice ("abc").data (-1) 3) = "abc" ∧
    ("c" : String) ≠ "abc" := by decide

/-- C10 amended: span extraction is total — for arbitrary integer offsets
extract_entities returns an Entity without failing — and the surface is
the clamped slice of the text after Python's negative-offset adjustment
(a negative offset first counts from the end of the text); for
non-negative offsets, including offsets past the end of the text, the
surface is exactly the clamped slice the claim describes. -/
theorem extract_total_clamped (a : NamedEntity) (t : String) :
    extract_entities a t =
      ⟨a.entity, String.mk (clampedSlice t.data (pyAdjust t.data.length a.start)
        (pyAdjust t.data.length a.end_))⟩ ∧
    (0 ≤ a.start → 0 ≤ a.end_ →
      extract_entities a t =
        ⟨a.entity, String.mk (clampedSlice t.data a.start a.end_)⟩) := by
  constructor
  · unfold extract_entities
    rw [pySlice_eq_clamped_adjusted]
  · intro hs he
    unfold extract_entities
    rw [pySlice_eq_clamped_adjusted]
    have has : pyAdjust t.data.length a.start = a.start := by
      unfold pyAdjust
      split <;> omega
    have hae : pyAdjust t.data.length a.end_ = a.end_ := by
      unfold pyAdjust
      split <;> omega
    rw [has, hae]

/-- Witness for the amended C10 at a concrete out-of-range non-negative
annotation. -/
theorem extract_total_clamped_witness :
    extract_entities ⟨"ORG", 2, 10⟩ "abc" =
      ⟨"ORG", String.mk (clampedSlice ("abc").data 2 10)⟩ :=
  (extract_total_clamped ⟨"ORG", 2, 10⟩ "abc").2 (by decide) (by decide)

/-- The seen set stays duplicate-free through the normalizer loop. -/
theorem normalizerAux_nodup : ∀ (es seen : List Entity), seen.Nodup →
    (normalizerAux seen es).1.Nodup
  | [], _, h => h
  | e :: es, seen, h => by
    unfold normalizerAux
    split
    · exact normalizerAux_nodup es seen h
    · refine normalizerAux_nodup es (seen ++ [e]) ?_
      simp only [List.nodup_append, List.nodup_cons, List.not_mem_nil, not_false_iff,
        List.nodup_nil, and_true, true_and]
      simp only [List.disjoint_singleton]
      constructor
      · exact h
      · assumption

/-- Membership in the normalizer's seen set: exactly the already seen
elements plus the remaining input. -/
theorem normalizerAux_mem : ∀ (es seen : List Entity) (x : Entity),
    x ∈ (normalizerAux seen es).1 ↔ x ∈ seen ∨ x ∈ es
  | [], seen, x => by simp [normalizerAux]
  | e :: es, seen, x => by
    unfold normalizerAux
    split
    · rw [normalizerAux_mem es seen x]
      simp only [List.mem_cons]
      constructor
      · tauto
      · rintro (h | h | h)
        · tauto
        · subst h
          left
          assumption
        · tauto
    · rw [normalizerAux_mem es (seen ++ [e]) x]
      simp only [List.mem_append, List.mem_singleton, List.mem_cons]
      tauto

/-- Occurrence count in the duplicate log: every occurrence of an already
seen value is logged, and otherwise all but the first. -/
theorem normalizerAux_count : ∀ (es seen : List Entity) (x : Entity),
    (normalizerAux seen es).2.count x =
      if x ∈ seen then es.count x else es.count x - 1
  | [], seen, x => by
    simp [normalizerAux]
  | e :: es, seen, x => by
    unfold normalizerAux
    split
    · rename_i hmem
      have ih := normalizerAux_count es seen x
      simp only [List.count_cons, beq_iff_eq, ih]
      by_cases hx : x ∈ seen
      · simp only [hx, if_true]
      · have hne : ¬ e = x := fun h => hx (h ▸ hmem)
        simp only [hx, hne, if_false]
        omega
    · rename_i hmem
      have ih := normalizerAux_count es (seen ++ [e]) x
      rw [ih, List.count_cons]
      simp only [beq_iff_eq]
      by_cases hx : x ∈ seen
      · have hne : ¬ e = x := fun h => hmem (h ▸ hx)
        rw [if_pos (List.mem_append.mpr (Or.inl hx)), if_pos hx, if_neg hne]
        omega
      · by_cases hxe : x = e
        · have hxx : x ∈ seen ++ [e] :=
            List.mem_append.mpr (Or.inr (List.mem_singleton.mpr hxe))
          rw [if_pos hxx, if_neg hx, if_pos hxe.symm]
          omega
        · have hxx : x ∉ seen ++ [e] := by
            intro h
            rcases List.mem_append.mp h with h1 | h1
            · exact hx h1
            · exact hxe (List.mem_singleton.mp h1)
          have hne : ¬ e = x := fun h => hxe h.symm
          rw [if_neg hxx, if_neg hx, if_neg hne]
          omega

/-- The duplicate log is a sublist of the input: its records appear in
input order. -/
theorem normalizerAux_sublist : ∀ (es seen : List Entity),
    (normalizerAux seen es).2.Sublist es
  | [], _ => List.Sublist.refl _
  | e :: es, seen => by
    unfold normalizerAux
    split
    · exact List.Sublist.cons₂ e (normalizerAux_sublist es seen)
    · exact List.Sublist.cons e (normalizerAux_sublist es (seen ++ [e]))

/-- C3: the Entity Normalizer returns a set with exactly one representative
per identity (type, surface): the returned list is duplicate-free under
Entity value equality, every input entity equals some member, every member
comes from the input, and every entity seen more than once appears in the
duplicate report. -/
theorem entity_normalizer_distinct (es : List Entity) :
    (entity_normalizer es).1.Nodup ∧
    (∀ e, e ∈ es → e ∈ (entity_normalizer es).1) ∧
    (∀ e, e ∈ (entity_normalizer es).1 → e ∈ es) ∧
    (∀ e, 2 ≤ es.count e → e ∈ (entity_normalizer es).2) := by
  refine ⟨normalizerAux_nodup es [] List.nodup_nil, ?_, ?_, ?_⟩
  · intro e he
    exact (normalizerAux_mem es [] e).mpr (Or.inr he)
  · intro e he
    rcases (normalizerAux_mem es [] e).mp he with h | h
    · exact absurd h (List.not_mem_nil e)
    · exact h
  · intro e hc
    have h := normalizerAux_count es [] e
    simp only [List.not_mem_nil, if_false] at h
    have hpos : 0 < (normalizerAux [] es).2.count e := by omega
    exact List.count_pos_iff.mp hpos

/-- Witness for C3 on a concrete duplicated batch. -/
theorem entity_normalizer_distinct_witness :
    appleEntity ∈ (entity_normalizer [appleEntity, appleEntity]).1 ∧
    appleEntity ∈ (entity_normalizer [appleEntity, appleEntity]).2 :=
  ⟨(entity_normalizer_distinct [appleEntity, appleEntity]).2.1 appleEntity (by decide),
   (entity_normalizer_distinct [appleEntity, appleEntity]).2.2.2 appleEntity (by decide)⟩

/-- C8 counterexample: on the input [Apple, Apple, Apple] the claimed
report would be the single record (Apple, 3), but the code's diagnostic
output is the two-element log [Apple, Apple] — one line per duplicate
occurrence, carrying no occurrence count. -/
theorem dup_report_counterexample :
    (entity_normalizer [appleEntity, appleEntity, appleEntity]).2 =
      [appleEntity, appleEntity] ∧
    specDupReport [appleEntity, appleEntity, appleEntity] = [(appleEntity, 3)] ∧
    (entity_normalizer [appleEntity, appleEntity, appleEntity]).2.length ≠
      (specDupReport [appleEntity, appleEntity, appleEntity]).length := by decide

/-- C8 amended: the Normalizer's diagnostic output is an ordered sequence
of bare entity records (no occurrence counts): one record per duplicate
occurrence — each occurrence after an entity's first — emitted in input
order (the log is a sublist of the input), so an entity occurring k ≥ 2
times appears k - 1 times in the report. -/
theorem dup_log_characterization (es : List Entity) :
    (entity_normalizer es).2.Sublist es ∧
    (∀ e, (entity_normalizer es).2.count e = es.count e - 1) := by
  refine ⟨normalizerAux_sublist es [], ?_⟩
  intro e
  have h := normalizerAux_count es [] e
  simp only [List.not_mem_nil, if_false] at h
  exact h

/-- C4: evidence of the divergence at a concrete failing batch — with the
entity (ORG, Apple) occurring twice, main issues two node-creation
operations, one per occurrence in the raw batch entity list, while the
normalized entity set it was supposed to consume has a single member.
In the source, entities_normalised is computed and then never used: the
node loop iterates the raw result entities. -/
theorem node_ops_follow_raw_entities :
    (mainNodeOps [dupDoc]).length = 2 ∧
    (entity_normalizer (run [dupDoc]).1).1.length = 1 := by decide

/-- Each run of the node persistence loop appends exactly one node per
entity to the store. -/
theorem persistNodes_length : ∀ (es : List Entity) (store : GraphStore),
    (persistNodes store es).nodes.length = store.nodes.length + es.length
  | [], _ => rfl
  | e :: es, store => by
    have ih := persistNodes_length es (create_node store e.e_type e.surface_string)
    simp only [persistNodes, List.foldl_cons] at ih ⊢
    rw [ih]
    have hcn : (create_node store e.e_type e.surface_string).nodes =
        store.nodes ++ [(e.e_type, e.surface_string)] := rfl
    rw [hcn, List.length_append]
    simp only [List.length_cons, List.length_nil]
    omega

/-- Each run of the edge persistence loop appends exactly one edge per
relationship to the store. -/
theorem persistEdges_length : ∀ (rels : List Relationship) (store : GraphStore),
    (persistEdges store rels).edges.length = store.edges.length + rels.length
  | [], _ => rfl
  | r :: rels, store => by
    have ih := persistEdges_length rels
      (create_relationship store r.ent1.e_type r.ent1.surface_string r.ent2.e_type
        r.ent2.surface_string relatedType r.relationship)
    simp only [persistEdges, List.foldl_cons] at ih ⊢
    rw [ih]
    have hce : (create_relationship store r.ent1.e_type r.ent1.surface_string
        r.ent2.e_type r.ent2.surface_string relatedType r.relationship).edges =
        store.edges ++ [(r.ent1.e_type, r.ent1.surface_string, r.ent2.e_type,
          r.ent2.surface_string, relatedType, r.relationship)] := rfl
    rw [hce, List.length_append]
    simp only [List.length_cons, List.length_nil]
    omega

/-- C5 counterexample: persisting the singleton normalized entity set
{(ORG, Apple)} once yields one node, persisting it twice yields two — the
store's node set does not keep its size, because _create_node issues an
unconditional CREATE; the spec-described create-if-absent operation would
have kept it at one. -/
theorem node_persist_not_idempotent_counterexample :
    (persistNodes (persistNodes ⟨[], []⟩ [appleEntity]) [appleEntity]).nodes.length ≠
      (persistNodes ⟨[], []⟩ [appleEntity]).nodes.length ∧
    (persistNodes ⟨[], []⟩ [appleEntity]).nodes.length = 1 ∧
    (persistNodes (persistNodes ⟨[], []⟩ [appleEntity]) [appleEntity]).nodes.length = 2 ∧
    (create_node_if_absent (create_node_if_absent ⟨[], []⟩ "ORG" "Apple")
      "ORG" "Apple").nodes.length = 1 := by decide

/-- C5 amended: persistence is idempotent neither for nodes nor for edges:
node creation is an unconditional CREATE keyed by nothing, so running the
per-entity node loop twice on the same entity list adds twice as many
nodes as its length, exactly like running the per-relationship edge loop
twice adds twice as many edges as the relationship list's length. -/
theorem double_persist_doubles (store : GraphStore) (es : List Entity)
    (rels : List Relationship) :
    (persistNodes (persistNodes store es) es).nodes.length =
      store.nodes.length + 2 * es.length ∧
    (persistEdges (persistEdges store rels) rels).edges.length =
      store.edges.length + 2 * rels.length := by
  constructor
  · rw [persistNodes_length, persistNodes_length]
    omega
  · rw [persistEdges_length, persistEdges_length]
    omega

/-- Every operation issued by the first loop of main is a node write. -/
theorem mainNodeOps_not_edge (docs : List PyDocument) (op : StoreOp)
    (h : op ∈ mainNodeOps docs) : op.isEdge = false := by
  obtain ⟨e, _, rfl⟩ := List.mem_map.mp h
  rfl

/-- Every operation issued by the second loop of main is an edge write. -/
theorem mainEdgeOps_edge (docs : List PyDocument) (op : StoreOp)
    (h : op ∈ mainEdgeOps docs) : op.isEdge = true := by
  obtain ⟨r, _, rfl⟩ := List.mem_map.mp h
  rfl

/-- C6: in the write-call sequence of main, no edge write precedes any
node write: if the operation at position i is an edge write then so is the
operation at every position j ≥ i — all node writes of the batch are
issued before the first edge write. -/
theorem node_writes_before_edge_writes (docs : List PyDocument) (i j : Nat)
    (hi : i < (mainStoreOps docs).length) (hj : j < (mainStoreOps docs).length)
    (hij : i ≤ j) (he : ((mainStoreOps docs)[i]).isEdge = true) :
    ((mainStoreOps docs)[j]).isEdge = true := by
  have hlen : (mainStoreOps docs).length =
      (mainNodeOps docs).length + (mainEdgeOps docs).length := by
    simp [mainStoreOps]
  by_cases hin : i < (mainNodeOps docs).length
  · exfalso
    have h1 : (mainStoreOps docs)[i] = (mainNodeOps docs)[i] :=
      List.getElem_append_left hin
    have h2 := mainNodeOps_not_edge docs ((mainNodeOps docs)[i])
      (List.getElem_mem hin)
    rw [h1, h2] at he
    exact Bool.false_ne_true he
  · have hjn : (mainNodeOps docs).length ≤ j := le_trans (not_lt.mp hin) hij
    have hjb : j - (mainNodeOps docs).length < (mainEdgeOps docs).length := by omega
    have h1 : (mainStoreOps docs)[j] =
        (mainEdgeOps docs)[j - (mainNodeOps docs).length] :=
      List.getElem_append_right hjn
    rw [h1]
    exact mainEdgeOps_edge docs _ (List.getElem_mem hjb)

/-- Witness for C6 on the scenario batch: position 3 of the operation
sequence (the first edge write, after three node writes) makes position 4
an edge write as well. -/
theorem node_writes_before_edge_writes_witness :
    ((mainStoreOps [d1]).get ⟨4, by decide⟩).isEdge = true :=
  node_writes_before_edge_writes [d1] 3 4 (by decide) (by decide) (by decide) (by decide)

/-- Membership through stable insertion: the inserted element plus the old
elements. -/
theorem insertByStart_mem : ∀ (a : NamedEntity) (l : List NamedEntity) (x : NamedEntity),
    x ∈ insertByStart a l ↔ x = a ∨ x ∈ l
  | _, [], x => by simp [insertByStart]
  | a, b :: l, x => by
    unfold insertByStart
    split
    · rw [List.mem_cons, insertByStart_mem a l x, List.mem_cons]
      tauto
    · simp only [List.mem_cons]

/-- Stable insertion preserves sortedness by the start offset. -/
theorem insertByStart_sorted : ∀ (a : NamedEntity) (l : List NamedEntity),
    l.Pairwise (fun x y => x.start ≤ y.start) →
    (insertByStart a l).Pairwise (fun x y => x.start ≤ y.start)
  | _, [], _ => List.pairwise_singleton _ _
  | a, b :: l, h => by
    rcases List.pairwise_cons.mp h with ⟨hb, hl⟩
    unfold insertByStart
    split
    · rename_i hba
      refine List.pairwise_cons.mpr ⟨?_, insertByStart_sorted a l hl⟩
      intro x hx
      rcases (insertByStart_mem a l x).mp hx with hxa | hxl
      · exact hxa ▸ hba
      · exact hb x hxl
    · rename_i hba
      refine List.pairwise_cons.mpr ⟨?_, h⟩
      intro x hx
      rcases List.mem_cons.mp hx with hxb | hxl
      · subst hxb
        omega
      · have := hb x hxl
        omega

/-- The processed prefix of the sort fold stays sorted. -/
theorem sortByStart_aux_sorted : ∀ (l acc : List NamedEntity),
    acc.Pairwise (fun x y => x.start ≤ y.start) →
    (l.foldl (fun acc a => insertByStart a acc) acc).Pairwise (fun x y => x.start ≤ y.start)
  | [], _, h => h
  | a :: l, acc, h => by
    simp only [List.foldl_cons]
    exact sortByStart_aux_sorted l (insertByStart a acc) (insertByStart_sorted a acc h)

/-- The sort in BuildGraph.run orders annotations by ascending start
offset. -/
theorem sortByStart_sorted (l : List NamedEntity) :
    (sortByStart l).Pairwise (fun x y => x.start ≤ y.start) :=
  sortByStart_aux_sorted l [] List.Pairwise.nil

/-- Every relationship built for one document carries that document's id
and splits the document's ordered entity list around two adjacent
positions. -/
theorem buildRelationships_mem (es : List Entity) (doc_id : String) (r : Relationship)
    (hr : r ∈ buildRelationships es doc_id) :
    r.relationship = doc_id ∧ ∃ l1 l2, es = l1 ++ r.ent1 :: r.ent2 :: l2 := by
  obtain ⟨p, hp, hpr⟩ := List.mem_map.mp hr
  obtain ⟨l1, l2, hsplit⟩ := consecutive_pairs_mem_split es p hp
  subst hpr
  exact ⟨rfl, l1, l2, hsplit⟩

/-- Every relationship of the batch result comes from the relationship
list of one of the batch's documents. -/
theorem run_rel_mem : ∀ (docs : List PyDocument) (r : Relationship),
    r ∈ (run docs).2 →
    ∃ doc, doc ∈ docs ∧ r ∈ buildRelationships (docEntities doc) doc.id
  | [], r, hr => nomatch hr
  | doc :: docs, r, hr => by
    rcases List.mem_append.mp hr with h | h
    · exact ⟨doc, List.mem_cons_self doc docs, h⟩
    · obtain ⟨d, hd, hmem⟩ := run_rel_mem docs r h
      exact ⟨d, List.mem_cons_of_mem doc hd, hmem⟩

/-- C7: the annotations of every document get ordered by ascending start
offset, and every Relationship in the batch output connects two entities
of one single document of the batch, occupying adjacent positions of that
document's ordered entity list, with that document's id as its context; in
particular no relationship connects entities more than one position apart
or from different documents. -/
theorem relationships_consecutive_same_document (docs : List PyDocument) :
    (∀ doc, doc ∈ docs →
      (sortByStart doc.named_entities).Pairwise (fun x y => x.start ≤ y.start)) ∧
    (∀ r, r ∈ (run docs).2 → ∃ doc, doc ∈ docs ∧ r.relationship = doc.id ∧
      ∃ l1 l2, docEntities doc = l1 ++ r.ent1 :: r.ent2 :: l2) := by
  constructor
  · intro doc _
    exact sortByStart_sorted doc.named_entities
  · intro r hr
    obtain ⟨doc, hdoc, hmem⟩ := run_rel_mem docs r hr
    obtain ⟨hid, l1, l2, hsplit⟩ := buildRelationships_mem (docEntities doc) doc.id r hmem
    exact ⟨doc, hdoc, hid, l1, l2, hsplit⟩

/-- Witness for C7: the first scenario relationship is anchored at a pair
of adjacent positions of the scenario document's entity list. -/
theorem relationships_consecutive_same_document_witness :
    ∃ doc, doc ∈ [d1] ∧ ("D1" : String) = doc.id ∧
      ∃ l1 l2, docEntities doc = l1 ++ appleEntity :: johnEntity :: l2 :=
  (relationships_consecutive_same_document [d1]).2 ⟨appleEntity, johnEntity, "D1"⟩ (by decide)
